import Mathlib

/-!
# The supervisor of the OS simulator (`oss.c`)

A shallow embedding of `src/oss.c`: the option phase of `main`, the main loop as a small-step
machine whose steps are the loop's statements interleaved with the two signal handlers,
`launch_child`, `handle_sigchld`, `handle_sigint` and `handle_exit`.

The clock (`clock.h`) and the resource manager (`resmgr.h`) are separate modules.  What their
functions return to the supervisor is an input of the step that makes the call.  Only the
arithmetic of `clock_advance` is modelled, from the specification, for the statement about
accumulated time.
-/

namespace Oss

/-! ## Constants and C integer conversions -/

/-- The macro `#define DEFAULT_LOG_FILE_PATH "oss.log"`. -/
def DEFAULT_LOG_FILE_PATH : String := "oss.log"

/-- The macro `#define MAX_PROCESSES 18`. -/
def MAX_PROCESSES : Int := 18

/-- Least value of `int`, the type behind `sig_atomic_t`. -/
def INT_MIN : Int := -2147483648

/-- Conversion of an integer value to `unsigned int` (32 bits). -/
def to_uint (x : Int) : Nat := (x % 4294967296).toNat

/-- Conversion of a natural number to `unsigned int` (32 bits). -/
def uint_of_nat (n : Nat) : Nat := n % 4294967296

/-- Conversion of a natural number to `unsigned long` (64 bits, as on LP64 Linux). -/
def ulong_of_nat (n : Nat) : Nat := n % 18446744073709551616

/-! ## Arithmetic of the main loop -/

/-- Line 262: `unsigned int dn = rand() % 1000000000u;` where `r` is what `rand()` returned.
The `int` is converted to `unsigned int` before the remainder is taken. -/
def gen_dn (r : Int) : Nat := to_uint r % 1000000000

/-- Line 270: `unsigned long now_time = now_seconds * 1000000000ul + now_nanos;`. -/
def compute_now_time (now_seconds now_nanos : Nat) : Nat :=
  ulong_of_nat (now_seconds * 1000000000 + now_nanos)

/-- Line 289, right operand: `(rand() % 500) * 1000000u`, computed in `unsigned int`;
`r` is what `rand()` returned and `%` on `int` truncates toward zero. -/
def spawn_spacing (r : Int) : Nat := uint_of_nat (to_uint (Int.tmod r 500) * 1000000)

/-- Line 289, the elapsed time `now_time - last_time` in `unsigned long`. -/
def elapsed (now_time last_time : Nat) : Nat :=
  ulong_of_nat (now_time + 18446744073709551616 - last_time % 18446744073709551616)

/-- Line 289: `last_time == 0 || (now_time - last_time >= (rand() % 500) * 1000000u)`. -/
def should_spawn (last_time now_time : Nat) (r : Int) : Bool :=
  decide (last_time = 0) || decide (spawn_spacing r ≤ elapsed now_time last_time)

/-! ## The clock, from the specification -/

/-- Modelled from the spec: the clock register of `clock.c`, which is not part of the sources at
hand: `seconds: unsigned integer`, `nanosRemainder: unsigned integer in [0, 1_000_000_000)`. -/
structure Clock where
  seconds : Nat
  nanos : Nat
deriving DecidableEq, Repr

/-- Modelled from the spec: `create(writer)` initialises the register to zero. -/
def clock_new_out : Clock := ⟨0, 0⟩

/-- Modelled from the spec: `advance(deltaNanos)` "adds `deltaNanos` to the current time,
normalizing overflow into seconds".  The call in `oss.c` is `clock_advance(g.clock, dn, 0)`. -/
def clock_advance (c : Clock) (deltaNanos : Nat) : Clock :=
  ⟨c.seconds + (c.nanos + deltaNanos) / 1000000000, (c.nanos + deltaNanos) % 1000000000⟩

/-- Modelled from the spec: `readNanos()` returns the current normalized remainder. -/
def clock_get_nanos (c : Clock) : Nat := c.nanos

/-- Modelled from the spec: `readSeconds()` returns the current seconds. -/
def clock_get_seconds (c : Clock) : Nat := c.seconds

/-- The clock after one `clock_advance` per tick, for the deltas of successive ticks. -/
def advance_all : Clock → List Nat → Clock
  | c, [] => c
  | c, d :: ds => advance_all (clock_advance c d) ds

/-- Lines 268-270: what the supervisor holds in `now_nanos`, `now_seconds` and `now_time` after
reading clock `c`; the first two are `unsigned int` variables. -/
structure Reading where
  now_nanos : Nat
  now_seconds : Nat
  now_time : Nat
deriving DecidableEq, Repr

/-- Lines 268-270 on a clock register `c`. -/
def read_clock (c : Clock) : Reading :=
  let now_nanos := uint_of_nat (clock_get_nanos c)
  let now_seconds := uint_of_nat (clock_get_seconds c)
  ⟨now_nanos, now_seconds, compute_now_time now_seconds now_nanos⟩

/-! ## Global state and observable calls -/

/-- The file-scope `static struct g`.  Pointers are `none` when `NULL`; a static object starts
zeroed. -/
structure Globals where
  log_file_path : Option String
  verbose : Int
  log_file : Option Nat
  clock : Option Nat
  resmgr : Option Nat
  num_child_procs : Int
  last_child_proc_dead : Int
  interrupted : Int
deriving DecidableEq, Repr

/-- The zero-initialised `g` at program start. -/
def Globals.zero : Globals :=
  { log_file_path := none, verbose := 0, log_file := none, clock := none, resmgr := none,
    num_child_procs := 0, last_child_proc_dead := 0, interrupted := 0 }

/-- Calls and outputs of the supervisor, in the order they happen.  A call that returns a value
the supervisor looks at carries that value. -/
inductive Event where
  /-- Call `clock_lock(g.clock)` returned `result`. -/
  | clock_lock (result : Int)
  /-- Call `clock_advance(g.clock, nanos, seconds)`. -/
  | clock_advance (nanos seconds : Nat)
  /-- Call `clock_get_nanos(g.clock)`. -/
  | clock_get_nanos
  /-- Call `clock_get_seconds(g.clock)`. -/
  | clock_get_seconds
  /-- Call `clock_unlock(g.clock)` returned `result`. -/
  | clock_unlock (result : Int)
  /-- Call `clock_delete(g.clock)`. -/
  | clock_delete
  /-- Call `resmgr_delete(g.resmgr)`. -/
  | resmgr_delete
  /-- The `fprintf` of the three lines of the interrupt dump in `handle_exit`. -/
  | print_dump (path : Option String) (stop_seconds stop_nanos : Nat)
  /-- Call `fclose(g.log_file)`. -/
  | fclose
  /-- Call `free(g.log_file_path)`. -/
  | free_log_file_path
  /-- Output `printf("process %d has died\n", pid)`. -/
  | print_died (pid : Int)
  /-- Entry into `launch_child()`, with the value `g.num_child_procs` has at that moment. -/
  | launch_child (num_child_procs : Int)
  /-- Call `fork()` returned `result`. -/
  | fork (result : Int)
  /-- Call `execv("./child", ...)` in the forked child. -/
  | execv
  /-- Output `perror("launch child failed (in parent): fork(2) failed")`. -/
  | perror_fork
  /-- Output `printf("spawned a new process: %d\n", child)`. -/
  | print_spawned (child : Int)
  /-- Output `printf("there are now %d processes in the system\n", n)`. -/
  | print_count (n : Int)
  /-- Call `usleep(100000)`. -/
  | usleep
  /-- Call `write(STDOUT_FILENO, death_notice_msg, ...)` in `handle_sigchld`. -/
  | write_death_notice
  /-- Call `wait(NULL)` in `handle_sigchld` returned `pid`. -/
  | wait (pid : Int)
deriving DecidableEq, Repr

/-- Calls on the clock. -/
def Event.on_clock : Event → Bool
  | .clock_lock _ => true
  | .clock_advance _ _ => true
  | .clock_get_nanos => true
  | .clock_get_seconds => true
  | .clock_unlock _ => true
  | .clock_delete => true
  | _ => false

/-- Calls on the resource manager.  Besides `resmgr_new` at startup, `resmgr_delete` is the only
call on the resource manager in `oss.c`. -/
def Event.on_resmgr : Event → Bool
  | .resmgr_delete => true
  | _ => false

/-- What the signal handlers do, as opposed to `main` and `launch_child`. -/
def Event.in_handler : Event → Bool
  | .write_death_notice => true
  | .wait _ => true
  | _ => false

/-- The clock calls among `evs`, in order. -/
def clock_calls (evs : List Event) : List Event := evs.filter Event.on_clock

/-- The events of `main` and `launch_child` among `evs`, in order. -/
def main_events (evs : List Event) : List Event := evs.filter (fun e => !e.in_handler)

/-! ## `getopt(3)` -/

/-- Whether `optstring` declares the option character `c`, and if so whether a colon follows
it, that is whether the option takes an argument. -/
def optstring_lookup : List Char → Char → Option Bool
  | [], _ => none
  | o :: rest, c =>
    if o = c ∧ c ≠ ':' then some (rest.head? = some ':') else optstring_lookup rest c

/-- The values `getopt` returns, each with the `optarg` it leaves, for the option characters
`cs` of one `argv` element; `next` is the following element, if any.  The flag tells whether
`next` was taken as an option argument.  An unknown character and a missing argument give `?`;
an option without argument leaves `optarg` null, as glibc does. -/
def getopt_cluster (optstring : List Char) :
    List Char → Option String → List (Char × Option String) × Bool
  | [], _ => ([], false)
  | c :: cs, next =>
    match optstring_lookup optstring c with
    | none =>
      let r := getopt_cluster optstring cs next
      (('?', none) :: r.1, r.2)
    | some false =>
      let r := getopt_cluster optstring cs next
      ((c, none) :: r.1, r.2)
    | some true =>
      match cs, next with
      | [], none => ([('?', none)], false)
      | [], some a => ([(c, some a)], true)
      | _ :: _, _ => ([(c, some (String.mk cs))], false)

/-- The successive results of `getopt(argc, argv, optstring)` until it returns -1, over the
elements after `argv[0]`.  `skip` says the head element was consumed as an argument.  A
non-option element ends the scan when `posixly_correct`, and is passed over otherwise. -/
def getopt_scan (posixly_correct : Bool) (optstring : List Char) :
    Bool → List String → List (Char × Option String)
  | _, [] => []
  | true, _ :: tail => getopt_scan posixly_correct optstring false tail
  | false, a :: tail =>
    match a.toList with
    | ['-', '-'] => []
    | '-' :: c :: cs =>
      let r := getopt_cluster optstring (c :: cs) tail.head?
      r.1 ++ getopt_scan posixly_correct optstring r.2 tail
    | _ => if posixly_correct then [] else getopt_scan posixly_correct optstring false tail

/-! ## `main` before the loop -/

/-- What the C library and the other modules answer during startup. -/
structure Host where
  /-- Whether `getopt` stops at the first non-option element. -/
  posixly_correct : Bool
  /-- Result of `strdup(3)` on a string: the copy, or `none` when allocation fails. -/
  strdup : String → Option String
  /-- Return value of `sigaction(SIGCHLD, ...)`. -/
  sigaction_sigchld : Int
  /-- Return value of `sigaction(SIGINT, ...)`. -/
  sigaction_sigint : Int
  /-- Return value of `clock_new(CLOCK_MODE_OUT)`. -/
  clock_new : Option Nat
  /-- Return value of `resmgr_new(RESMGR_SIDE_SERVER)`. -/
  resmgr_new : Option Nat

/-- How the code before the loop ends. -/
inductive Startup where
  /-- The function `main` returned `code`; `g` is the global state `handle_exit` will see. -/
  | returned (code : Int) (g : Globals)
  /-- The function `strdup` was called on a null `optarg`: behaviour undefined. -/
  | undefined
  /-- Line 250 was reached. -/
  | running (g : Globals)
deriving DecidableEq, Repr

/-- Lines 180-203: the `while ((opt = getopt(argc, argv, "hlv:")) != -1)` loop over the results
of `getopt`.  `running g` stands for leaving the loop normally. -/
def option_loop (host : Host) : List (Char × Option String) → Globals → Startup
  | [], g => .running g
  | (opt, optarg) :: rest, g =>
    if opt = 'h' then .returned 0 g
    else if opt = 'l' then
      match optarg with
      | none => .undefined
      | some a =>
        match host.strdup a with
        | none => .returned 1 { g with log_file_path := none }
        | some p => option_loop host rest { g with log_file_path := some p }
    else if opt = 'v' then option_loop host rest g
    else .returned 1 g

/-- Lines 176-243 of `main`, for the command-line elements `args` after `argv[0]`. -/
def main_startup (host : Host) (args : List String) : Startup :=
  let g := { Globals.zero with log_file_path := host.strdup DEFAULT_LOG_FILE_PATH }
  match option_loop host (getopt_scan host.posixly_correct "hlv:".toList false args) g with
  | .running g =>
    if g.log_file_path.isNone then .returned 1 g
    else if host.sigaction_sigchld ≠ 0 then .returned 2 g
    else .running { g with clock := host.clock_new, resmgr := host.resmgr_new }
  | r => r

/-- The log file path the supervisor works with once options are parsed, when it gets there. -/
def Startup.log_file_path : Startup → Option String
  | .running g => g.log_file_path
  | _ => none

/-! ## `handle_exit` -/

/-- Lines 49-93, registered with `atexit`: the calls made for global state `g`, where
`lock_result` and `unlock_result` are what `clock_lock` and `clock_unlock` return and `clk`
is what the two reads return (nanos, seconds). -/
def handle_exit (g : Globals) (lock_result unlock_result : Int) (clk : Int × Int) : List Event :=
  (match g.clock with
    | some _ =>
      let locked := decide (lock_result = 0)
      let stop_nanos := if locked then to_uint clk.1 else 0
      let stop_seconds := if locked then to_uint clk.2 else 0
      [Event.clock_lock lock_result]
        ++ (if locked then
              [Event.clock_get_nanos, Event.clock_get_seconds, Event.clock_unlock unlock_result]
            else [])
        ++ (if g.interrupted ≠ 0 then [Event.print_dump g.log_file_path stop_seconds stop_nanos]
            else [])
    | none => [])
  ++ (if g.clock.isSome then [Event.clock_delete] else [])
  ++ (if g.resmgr.isSome then [Event.resmgr_delete] else [])
  ++ (if g.log_file.isSome then [Event.fclose] else [])
  ++ (if g.log_file_path.isSome then [Event.free_log_file_path] else [])

/-! ## The main loop as a machine -/

/-- Greatest value of `int`. -/
def INT_MAX : Int := 2147483647

/-- Where the supervisor stands: the statement of the loop (or of `launch_child`) it executes
next.  A signal handler may run between any two of them. -/
inductive PC where
  /-- Line 257: `if (clock_lock(g.clock)) return 1;`. -/
  | lock
  /-- Line 262: `unsigned int dn = rand() % 1000000000u;`. -/
  | gen_dn
  /-- Line 265: `clock_advance(g.clock, dn, 0);`. -/
  | advance
  /-- Line 268: `unsigned int now_nanos = clock_get_nanos(g.clock);`. -/
  | get_nanos
  /-- Lines 269-270: `now_seconds = clock_get_seconds(g.clock);` and `now_time`. -/
  | get_seconds
  /-- Line 273: `if (clock_unlock(g.clock)) return 1;`. -/
  | unlock
  /-- Line 281: `if (g.last_child_proc_dead)`. -/
  | report_test
  /-- Line 283: `printf("process %d has died\n", g.last_child_proc_dead);`. -/
  | report_print
  /-- Line 284: `g.last_child_proc_dead = 0;`. -/
  | report_reset
  /-- Line 289: the spawn condition. -/
  | spawn_cond
  /-- Line 292: `if (g.num_child_procs < MAX_PROCESSES)`. -/
  | spawn_guard
  /-- Lines 295 and 119: the call of `launch_child` and its `if (g.interrupted) return -1;`. -/
  | launch_entry
  /-- Lines 122-152: `int child_pid = fork();` and the branch on it. -/
  | launch_fork
  /-- Line 143, first half of `g.num_child_procs++`: the read. -/
  | launch_load
  /-- Line 143, second half of `g.num_child_procs++`: the write; then `return child_pid;`. -/
  | launch_store
  /-- Line 297: `printf("spawned a new process: %d\n", child);`. -/
  | print_spawned
  /-- Line 298: `printf("there are now %d processes in the system\n", g.num_child_procs);`. -/
  | print_count
  /-- Line 303: `last_time = now_time;`. -/
  | update_last
  /-- Line 306: `if (g.interrupted) break;`. -/
  | test_interrupt
  /-- Line 309: `usleep(100000);`, then back to the top of the loop. -/
  | sleep
  /-- The function `main` has returned `code`. -/
  | exited (code : Int)
  /-- This is the forked child, after `execv` (replaced image, or `_Exit(1)`). -/
  | child_image
deriving DecidableEq, Repr

/-- State of the supervisor inside the loop: the globals, the position, the locals of `main`
and `launch_child`, and the log of events, grouped by loop iteration (`past` holds the
completed iterations, `cur` the one under way). -/
structure Sys where
  g : Globals
  pc : PC
  last_time : Nat
  dn : Nat
  now_nanos : Nat
  now_seconds : Nat
  now_time : Nat
  child_pid : Int
  child : Int
  reg : Int
  past : List (List Event)
  cur : List Event
deriving DecidableEq, Repr

/-- Appends an event to the log of the current iteration. -/
def Sys.emit (s : Sys) (e : Event) : Sys := { s with cur := s.cur ++ [e] }

/-- All events logged so far, oldest first. -/
def Sys.events (s : Sys) : List Event := s.past.flatten ++ s.cur

/-- The state in which line 250 is reached: `unsigned long last_time = 0;`. -/
def loop_init (g : Globals) : Sys :=
  { g := g, pc := .lock, last_time := 0, dn := 0, now_nanos := 0, now_seconds := 0,
    now_time := 0, child_pid := 0, child := 0, reg := 0, past := [], cur := [] }

/-- Lines 95-109, `handle_sigchld`, where `pid` is what `wait(NULL)` returns.  Decrementing an
`int` that holds `INT_MIN` is undefined: no next state. -/
def handle_sigchld (pid : Int) (s : Sys) : Option Sys :=
  if s.g.num_child_procs = INT_MIN then none
  else
    let s1 := { s with g := { s.g with num_child_procs := s.g.num_child_procs - 1 } }
    let s2 := (s1.emit .write_death_notice).emit (.wait pid)
    some { s2 with g := { s2.g with last_child_proc_dead := pid } }

/-- Lines 111-115, `handle_sigint`. -/
def handle_sigint (s : Sys) : Sys := { s with g := { s.g with interrupted := 1 } }

/-- One statement of `launch_child` (lines 117-154), chosen by `s.pc`; `x` is what `fork`
returns.  The `return` hands `child` back to line 295.  Incrementing an `int` that holds
`INT_MAX` is undefined: no next state. -/
def launch_child (x : Int) (s : Sys) : Option Sys :=
  match s.pc with
  | .launch_entry =>
    if s.g.interrupted ≠ 0 then
      some ({ s with child := -1, pc := .print_spawned }.emit (.launch_child s.g.num_child_procs))
    else some ({ s with pc := .launch_fork }.emit (.launch_child s.g.num_child_procs))
  | .launch_fork =>
    if x = 0 then some (({ s with child_pid := x, pc := .child_image }.emit (.fork x)).emit .execv)
    else if x > 0 then some ({ s with child_pid := x, pc := .launch_load }.emit (.fork x))
    else some (({ s with child_pid := x, child := -1, pc := .print_spawned }.emit
      (.fork x)).emit .perror_fork)
  | .launch_load => some { s with reg := s.g.num_child_procs, pc := .launch_store }
  | .launch_store =>
    if s.reg = INT_MAX then none
    else some { s with g := { s.g with num_child_procs := s.reg + 1 },
                       child := s.child_pid, pc := .print_spawned }
  | _ => some s

/-- One statement of the loop of `main` (lines 250-310), chosen by `s.pc`; inside the call of
line 295, one statement of `launch_child`.  `x` is what the environment answers in that
statement, when it asks: the return value of `clock_lock`, `rand`, `clock_get_nanos`,
`clock_get_seconds`, `clock_unlock` or `fork`. -/
def main_step (x : Int) (s : Sys) : Option Sys :=
  match s.pc with
  | .lock =>
    if x ≠ 0 then some ({ s with pc := .exited 1 }.emit (.clock_lock x))
    else some ({ s with pc := .gen_dn }.emit (.clock_lock x))
  | .gen_dn => some { s with dn := gen_dn x, pc := .advance }
  | .advance => some ({ s with pc := .get_nanos }.emit (.clock_advance s.dn 0))
  | .get_nanos =>
    some ({ s with now_nanos := to_uint x, pc := .get_seconds }.emit .clock_get_nanos)
  | .get_seconds =>
    some ({ s with now_seconds := to_uint x,
                   now_time := compute_now_time (to_uint x) s.now_nanos,
                   pc := .unlock }.emit .clock_get_seconds)
  | .unlock =>
    if x ≠ 0 then some ({ s with pc := .exited 1 }.emit (.clock_unlock x))
    else some ({ s with pc := .report_test }.emit (.clock_unlock x))
  | .report_test =>
    if s.g.last_child_proc_dead ≠ 0 then some { s with pc := .report_print }
    else some { s with pc := .spawn_cond }
  | .report_print =>
    some ({ s with pc := .report_reset }.emit (.print_died s.g.last_child_proc_dead))
  | .report_reset =>
    some { s with g := { s.g with last_child_proc_dead := 0 }, pc := .spawn_cond }
  | .spawn_cond =>
    if should_spawn s.last_time s.now_time x then some { s with pc := .spawn_guard }
    else some { s with pc := .update_last }
  | .spawn_guard =>
    if s.g.num_child_procs < MAX_PROCESSES then some { s with pc := .launch_entry }
    else some { s with pc := .update_last }
  | .launch_entry => launch_child x s
  | .launch_fork => launch_child x s
  | .launch_load => launch_child x s
  | .launch_store => launch_child x s
  | .print_spawned => some ({ s with pc := .print_count }.emit (.print_spawned s.child))
  | .print_count => some ({ s with pc := .update_last }.emit (.print_count s.g.num_child_procs))
  | .update_last => some { s with last_time := s.now_time, pc := .test_interrupt }
  | .test_interrupt =>
    if s.g.interrupted ≠ 0 then some { s with pc := .exited 0 }
    else some { s with pc := .sleep }
  | .sleep => some { s with past := s.past ++ [s.cur ++ [.usleep]], cur := [], pc := .lock }
  | .exited _ => some s
  | .child_image => some s

/-- What can happen next: `main` executes its next statement, or a signal arrives and its
handler runs. -/
inductive Action where
  /-- The next statement, with the environment's answer `x`. -/
  | main (x : Int)
  /-- SIGCHLD is delivered; `wait(NULL)` in the handler returns `pid`. -/
  | sigchld (pid : Int)
  /-- SIGINT is delivered. -/
  | sigint
deriving DecidableEq, Repr

/-- One step of the supervisor. -/
def step (a : Action) (s : Sys) : Option Sys :=
  match a with
  | .main x => main_step x s
  | .sigchld pid => handle_sigchld pid s
  | .sigint => some (handle_sigint s)

/-- The state after the steps `acts`, when none of them is undefined. -/
def run : List Action → Sys → Option Sys
  | [], s => some s
  | a :: acts, s =>
    match step a s with
    | some s1 => run acts s1
    | none => none

/-- The five clock calls of a full iteration, in order. -/
def five_calls (dn : Nat) (unlock_result : Int) : List Event :=
  [.clock_lock 0, .clock_advance dn 0, .clock_get_nanos, .clock_get_seconds,
   .clock_unlock unlock_result]

/-! ## What holds in every state of the loop -/

/-- Positions inside the clock part of an iteration (lines 256-274). -/
def PC.in_clock_part : PC → Bool
  | .lock => true
  | .gen_dn => true
  | .advance => true
  | .get_nanos => true
  | .get_seconds => true
  | .unlock => true
  | _ => false

/-- The clock calls the iteration under way has made, according to the position. -/
def cur_clock_ok (s : Sys) : Prop :=
  match s.pc with
  | .lock => clock_calls s.cur = []
  | .gen_dn => clock_calls s.cur = [.clock_lock 0]
  | .advance => clock_calls s.cur = [.clock_lock 0]
  | .get_nanos => clock_calls s.cur = [.clock_lock 0, .clock_advance s.dn 0]
  | .get_seconds => clock_calls s.cur = [.clock_lock 0, .clock_advance s.dn 0, .clock_get_nanos]
  | .unlock =>
    clock_calls s.cur
      = [.clock_lock 0, .clock_advance s.dn 0, .clock_get_nanos, .clock_get_seconds]
  | .exited _ =>
    (∃ x, x ≠ 0 ∧ clock_calls s.cur = [.clock_lock x])
      ∨ ∃ u, clock_calls s.cur = five_calls s.dn u
  | _ => clock_calls s.cur = five_calls s.dn 0

/-- The invariant of the loop. -/
structure Inv (s : Sys) : Prop where
  /-- The census never exceeds the ceiling. -/
  num_le : s.g.num_child_procs ≤ MAX_PROCESSES
  /-- Between the guard of line 292 and the read of line 143 there is room for a child. -/
  room : s.pc = .launch_entry ∨ s.pc = .launch_fork ∨ s.pc = .launch_load →
    s.g.num_child_procs < MAX_PROCESSES
  /-- The value read by the increment is below the ceiling. -/
  reg_lt : s.pc = .launch_store → s.reg < MAX_PROCESSES
  /-- Every call of `launch_child` so far was made below the ceiling. -/
  calls_lt : ∀ n, Event.launch_child n ∈ s.events → n < MAX_PROCESSES
  /-- Every completed iteration made the five clock calls, once each, in order. -/
  past_ok : ∀ it ∈ s.past, ∃ dn, clock_calls it = five_calls dn 0
  /-- The iteration under way has made the clock calls its position tells. -/
  cur_ok : cur_clock_ok s
  /-- Inside the clock part, `main` has done nothing but clock calls in this iteration. -/
  early : s.pc.in_clock_part = true → main_events s.cur = clock_calls s.cur
  /-- Nothing in the loop is a call on the resource manager. -/
  no_resmgr : ∀ e ∈ s.events, e.on_resmgr = false

/-! ## Concrete runs -/

/-- A host on which every startup call succeeds. -/
def host_ok : Host :=
  { posixly_correct := false, strdup := some, sigaction_sigchld := 0, sigaction_sigint := 0,
    clock_new := some 1, resmgr_new := some 2 }

/-- The globals with which `oss`, run without arguments on `host_ok`, enters the loop. -/
def demo_g : Globals :=
  { Globals.zero with log_file_path := some "oss.log", clock := some 1, resmgr := some 2 }

/-- A first iteration: the clock advances by 5 ns, no death is pending, a child is spawned
(`fork` returns 4321), no interrupt. -/
def first_iteration : List Action :=
  [.main 0, .main 5, .main 0, .main 5, .main 0, .main 0, .main 0, .main 0, .main 0, .main 0,
   .main 4321, .main 0, .main 0, .main 0, .main 0, .main 0, .main 0, .main 0]

/-- The events of `first_iteration`. -/
def first_iteration_events : List Event :=
  [.clock_lock 0, .clock_advance 5 0, .clock_get_nanos, .clock_get_seconds, .clock_unlock 0,
   .launch_child 0, .fork 4321, .print_spawned 4321, .print_count 1, .usleep]

/-- The state after `first_iteration`. -/
def after_first_iteration : Sys :=
  { g := { demo_g with num_child_procs := 1 }, pc := .lock, last_time := 5, dn := 5,
    now_nanos := 5, now_seconds := 0, now_time := 5, child_pid := 4321, child := 4321, reg := 0,
    past := [first_iteration_events], cur := [] }

/-- The start of a second iteration: the clock advances by 7 ns to 12 ns, then SIGCHLD arrives
for child 4321. -/
def death_arrives : List Action :=
  [.main 0, .main 7, .main 0, .main 12, .main 0, .main 0, .sigchld 4321]

/-- The state after `first_iteration` and `death_arrives`: line 281 is next. -/
def death_pending : Sys :=
  { g := { demo_g with num_child_procs := 0, last_child_proc_dead := 4321 }, pc := .report_test,
    last_time := 5, dn := 7, now_nanos := 12, now_seconds := 0, now_time := 12,
    child_pid := 4321, child := 4321, reg := 0, past := [first_iteration_events],
    cur := [.clock_lock 0, .clock_advance 7 0, .clock_get_nanos, .clock_get_seconds,
            .clock_unlock 0, .write_death_notice, .wait 4321] }

/-- The rest of the second iteration: the death is reported, no spawn is due (`rand()` returns
3, a spacing of 3 ms), no interrupt. -/
def death_reported : List Action :=
  [.main 0, .main 0, .main 0, .main 3, .main 0, .main 0, .main 0]

/-- The events of the second iteration. -/
def death_iteration_events : List Event :=
  [.clock_lock 0, .clock_advance 7 0, .clock_get_nanos, .clock_get_seconds, .clock_unlock 0,
   .write_death_notice, .wait 4321, .print_died 4321, .usleep]

/-- Two iterations: the first advances the clock to 700,000,000 ns and spawns child 4321; the
second advances it by 5 ns, `rand()` returns 500 on line 289, and `launch_child` is entered. -/
def short_spacing_run : List Action :=
  [.main 0, .main 700000000, .main 0, .main 700000000, .main 0, .main 0, .main 0, .main 0,
   .main 0, .main 0, .main 4321, .main 0, .main 0, .main 0, .main 0, .main 0, .main 0, .main 0,
   .main 0, .main 5, .main 0, .main 700000005, .main 0, .main 0, .main 0, .main 500, .main 0,
   .main 0]

/-! ## Signals between two statements -/

/-- Whether an action is the delivery of a signal. -/
def Action.is_signal : Action → Bool
  | .main _ => false
  | .sigchld _ => true
  | .sigint => true

/-- What the handlers log for the signals among `acts`: `handle_sigchld` logs its `write` and
its `wait`, `handle_sigint` logs nothing. -/
def handler_events : List Action → List Event
  | [] => []
  | .sigchld pid :: rest => .write_death_notice :: .wait pid :: handler_events rest
  | _ :: rest => handler_events rest

/-- The value of `g.last_child_proc_dead` after the signals among `acts`, from the value `d`:
each run of `handle_sigchld` overwrites it with what its `wait` returned (line 108). -/
def last_recorded : List Action → Int → Int
  | [], d => d
  | .sigchld pid :: rest, _ => last_recorded rest pid
  | _ :: rest, d => last_recorded rest d

/-! ## Facts about the clock model -/

theorem clock_advance_total (c : Clock) (d : Nat) :
    (clock_advance c d).seconds * 1000000000 + (clock_advance c d).nanos
      = c.seconds * 1000000000 + c.nanos + d := by
  simp only [clock_advance]
  have := Nat.div_add_mod (c.nanos + d) 1000000000
  omega

theorem clock_advance_nanos_lt (c : Clock) (d : Nat) :
    (clock_advance c d).nanos < 1000000000 := by
  simp only [clock_advance]
  exact Nat.mod_lt _ (by decide)

theorem advance_all_total (ds : List Nat) (c : Clock) :
    (advance_all c ds).seconds * 1000000000 + (advance_all c ds).nanos
      = c.seconds * 1000000000 + c.nanos + ds.sum := by
  induction ds generalizing c with
  | nil => simp [advance_all]
  | cons d ds ih =>
    simp only [advance_all, List.sum_cons]
    rw [ih, clock_advance_total]
    omega

theorem advance_all_nanos_lt (ds : List Nat) (c : Clock) (hc : c.nanos < 1000000000) :
    (advance_all c ds).nanos < 1000000000 := by
  induction ds generalizing c with
  | nil => simpa [advance_all] using hc
  | cons d ds ih =>
    simp only [advance_all]
    exact ih _ (clock_advance_nanos_lt c d)

/-- The register after the ticks `ds` from zero, in closed form. -/
theorem advance_all_zero (ds : List Nat) :
    advance_all clock_new_out ds = ⟨ds.sum / 1000000000, ds.sum % 1000000000⟩ := by
  have h1 := advance_all_total ds clock_new_out
  have h2 := advance_all_nanos_lt ds clock_new_out (by decide)
  simp only [clock_new_out] at h1 h2 ⊢
  generalize advance_all ⟨0, 0⟩ ds = c at h1 h2
  obtain ⟨s, n⟩ := c
  simp only at h1 h2
  simp only [Clock.mk.injEq]
  omega

/-! ## Accumulated time as the supervisor reads it -/

/-- C4, as amended: from a zeroed clock, after one `clock_advance` per delta of `ds`, when the
deltas sum to less than 2^32 seconds (what the `unsigned int now_seconds` can hold), the
supervisor reads `now_seconds * 1_000_000_000 + now_nanos = d_1 + ... + d_n` with
`now_nanos < 1_000_000_000`, and `now_time` is that sum; three advances of 400,000,000 ns read
as (1 s, 200,000,000 ns). -/
theorem time_read_is_sum_of_deltas (ds : List Nat) (h : ds.sum < 4294967296 * 1000000000) :
    (read_clock (advance_all clock_new_out ds)).now_seconds * 1000000000
        + (read_clock (advance_all clock_new_out ds)).now_nanos = ds.sum
      ∧ (read_clock (advance_all clock_new_out ds)).now_nanos < 1000000000
      ∧ (read_clock (advance_all clock_new_out ds)).now_time = ds.sum
      ∧ read_clock (advance_all clock_new_out [400000000, 400000000, 400000000])
          = ⟨200000000, 1, 1200000000⟩ := by
  rw [advance_all_zero]
  have hs : ds.sum / 1000000000 < 4294967296 := by omega
  have hn : ds.sum % 1000000000 < 1000000000 := Nat.mod_lt _ (by decide)
  have e1 : ds.sum / 1000000000 % 4294967296 = ds.sum / 1000000000 := Nat.mod_eq_of_lt hs
  have e2 : ds.sum % 1000000000 % 4294967296 = ds.sum % 1000000000 :=
    Nat.mod_eq_of_lt (by omega)
  have e3 : ds.sum / 1000000000 * 1000000000 + ds.sum % 1000000000 = ds.sum := by omega
  simp only [read_clock, clock_get_nanos, clock_get_seconds, uint_of_nat, compute_now_time,
    ulong_of_nat, e1, e2, e3]
  refine ⟨trivial, hn, Nat.mod_eq_of_lt (by omega), by decide⟩

/-- C4 at the scenario of the specification. -/
theorem time_read_is_sum_of_deltas_witness :
    [400000000, 400000000, 400000000].sum < 4294967296 * 1000000000
      ∧ (read_clock (advance_all clock_new_out [400000000, 400000000, 400000000])).now_seconds
            * 1000000000
          + (read_clock (advance_all clock_new_out [400000000, 400000000, 400000000])).now_nanos
          = [400000000, 400000000, 400000000].sum :=
  ⟨by decide, (time_read_is_sum_of_deltas [400000000, 400000000, 400000000] (by decide)).1⟩

/-- The reading after `n` ticks of `d` nanoseconds each, from a zeroed clock. -/
theorem read_after_equal_ticks (n d : Nat) :
    read_clock (advance_all clock_new_out (List.replicate n d))
      = read_clock ⟨n * d / 1000000000, n * d % 1000000000⟩ := by
  rw [advance_all_zero, List.sum_replicate, smul_eq_mul]

theorem sum_equal_ticks (n d : Nat) : (List.replicate n d).sum = n * d := by
  rw [List.sum_replicate, smul_eq_mul]

/-- C4 as stated fails once the seconds no longer fit `unsigned int`: after 2^33 ticks of
500,000,000 ns the clock stands at 2^32 s and the supervisor reads 0 s, 0 ns. -/
theorem time_read_wraps_at_2_pow_32_seconds :
    ¬ ((read_clock (advance_all clock_new_out (List.replicate 8589934592 500000000))).now_seconds
            * 1000000000
          + (read_clock (advance_all clock_new_out
              (List.replicate 8589934592 500000000))).now_nanos
          = (List.replicate 8589934592 500000000).sum
        ∧ (read_clock (advance_all clock_new_out
              (List.replicate 8589934592 500000000))).now_nanos < 1000000000) := by
  rw [read_after_equal_ticks, sum_equal_ticks]
  intro h
  have h1 := h.1
  simp only [read_clock, clock_get_nanos, clock_get_seconds, uint_of_nat] at h1
  revert h1
  decide

/-! ## Startup and shutdown -/

theorem option_loop_returned (host : Host) (evs : List (Char × Option String)) (g : Globals)
    (code : Int) (g1 : Globals) (h : option_loop host evs g = .returned code g1) :
    g1.clock = g.clock ∧ g1.resmgr = g.resmgr := by
  induction evs generalizing g with
  | nil => simp [option_loop] at h
  | cons ev evs ih =>
    obtain ⟨opt, optarg⟩ := ev
    simp only [option_loop] at h
    split_ifs at h
    · simp only [Startup.returned.injEq] at h
      simp [← h.2]
    · cases optarg with
      | none => simp at h
      | some a =>
        cases hs : host.strdup a with
        | none =>
          simp only [hs, Startup.returned.injEq] at h
          simp [← h.2]
        | some p =>
          simp only [hs] at h
          simpa using ih _ h
    · exact ih g h
    · simp only [Startup.returned.injEq] at h
      simp [← h.2]

theorem option_loop_running (host : Host) (evs : List (Char × Option String)) (g : Globals)
    (g1 : Globals) (h : option_loop host evs g = .running g1) :
    g1.clock = g.clock ∧ g1.resmgr = g.resmgr ∧ g1.num_child_procs = g.num_child_procs := by
  induction evs generalizing g with
  | nil =>
    simp only [option_loop, Startup.running.injEq] at h
    simp [← h]
  | cons ev evs ih =>
    obtain ⟨opt, optarg⟩ := ev
    simp only [option_loop] at h
    split_ifs at h
    · cases optarg with
      | none => simp at h
      | some a =>
        cases hs : host.strdup a with
        | none => simp [hs] at h
        | some p =>
          simp only [hs] at h
          simpa using ih _ h
    · exact ih g h

/-- When `main` returns before the loop, neither the clock nor the resource manager exists. -/
theorem main_startup_returned (host : Host) (args : List String) (code : Int) (g : Globals)
    (h : main_startup host args = .returned code g) : g.clock = none ∧ g.resmgr = none := by
  simp only [main_startup] at h
  split at h
  · rename_i g1 hr
    have hk := option_loop_running _ _ _ _ hr
    split_ifs at h <;> simp only [Startup.returned.injEq, reduceCtorEq] at h
    all_goals
      obtain ⟨-, rfl⟩ := h
      simpa [Globals.zero] using And.intro hk.1 hk.2.1
  · rename_i r hr
    simpa [Globals.zero] using option_loop_returned _ _ _ _ _ h

/-- The loop starts with no child counted. -/
theorem main_startup_running (host : Host) (args : List String) (g : Globals)
    (h : main_startup host args = .running g) : g.num_child_procs = 0 := by
  simp only [main_startup] at h
  split at h
  · rename_i g1 hr
    have hk := option_loop_running _ _ _ _ hr
    split_ifs at h
    simp only [Startup.running.injEq] at h
    subst h
    simpa [Globals.zero] using hk.2.2
  · rename_i r hr
    exact absurd h (hr g)

/-- C6: at shutdown `handle_exit` calls `clock_delete` exactly once when `g.clock` is non-null
and never otherwise, and `resmgr_delete` exactly once when `g.resmgr` is non-null and never
otherwise; when `main` returns before the loop (help, invalid option, failed allocation, failed
`sigaction`) neither exists yet and `handle_exit` makes no destroy call. -/
theorem handle_exit_destroys_what_was_created (g : Globals) (lock_result unlock_result : Int)
    (clk : Int × Int) :
    (handle_exit g lock_result unlock_result clk).count .clock_delete
        = (if g.clock.isSome then 1 else 0)
      ∧ (handle_exit g lock_result unlock_result clk).count .resmgr_delete
        = (if g.resmgr.isSome then 1 else 0)
      ∧ ∀ (host : Host) (args : List String) (code : Int) (g1 : Globals),
          main_startup host args = .returned code g1 →
            (handle_exit g1 lock_result unlock_result clk).count .clock_delete = 0
              ∧ (handle_exit g1 lock_result unlock_result clk).count .resmgr_delete = 0 := by
  have key : ∀ g : Globals,
      (handle_exit g lock_result unlock_result clk).count .clock_delete
        = (if g.clock.isSome then 1 else 0)
      ∧ (handle_exit g lock_result unlock_result clk).count .resmgr_delete
        = (if g.resmgr.isSome then 1 else 0) := by
    intro g
    obtain ⟨path, verbose, log_file, clock, resmgr, n, d, i⟩ := g
    cases clock <;> cases resmgr <;> cases log_file <;> cases path <;>
      by_cases hl : lock_result = 0 <;> by_cases hi : i = 0 <;>
      simp [handle_exit, hl, hi, List.count_cons, List.count_append]
  refine ⟨(key g).1, (key g).2, ?_⟩
  intro host args code g1 h
  obtain ⟨hc, hr⟩ := main_startup_returned host args code g1 h
  have := key g1
  simpa [hc, hr] using this

/-- C6 at a concrete shutdown: `oss -h` returns 0 before anything is created. -/
theorem handle_exit_destroys_what_was_created_witness :
    main_startup host_ok ["-h"]
        = .returned 0 { Globals.zero with log_file_path := some "oss.log" }
      ∧ (handle_exit { Globals.zero with log_file_path := some "oss.log" } 0 0 (0, 0)).count
          .clock_delete = 0
      ∧ (handle_exit { Globals.zero with log_file_path := some "oss.log" } 0 0 (0, 0)).count
          .resmgr_delete = 0 :=
  have h : main_startup host_ok ["-h"]
      = .returned 0 { Globals.zero with log_file_path := some "oss.log" } := by decide
  ⟨h, (handle_exit_destroys_what_was_created Globals.zero 0 0 (0, 0)).2.2 host_ok ["-h"] 0 _ h⟩

/-- C7: with the arguments `-l f` the option loop meets `l` with a null `optarg`, because the
option string `"hlv:"` gives the argument to `v`; `strdup(optarg)` is then undefined and the log
file path never becomes `f`.  Without arguments the path is the default `"oss.log"`. -/
theorem dash_l_never_sets_the_path (host : Host) (f : String) :
    main_startup host ["-l", f] = .undefined
      ∧ (main_startup host ["-l", f]).log_file_path ≠ some f
      ∧ (main_startup host_ok []).log_file_path = some DEFAULT_LOG_FILE_PATH := by
  have h : main_startup host ["-l", f] = .undefined := by
    simp [main_startup, getopt_scan, getopt_cluster, optstring_lookup, option_loop]
  refine ⟨h, by simp [h, Startup.log_file_path], by decide⟩

/-! ## The two random durations -/

/-- The duration of line 262 is below one second for every value of `rand()`. -/
theorem gen_dn_lt (r : Int) : gen_dn r < 1000000000 := Nat.mod_lt _ (by decide)

/-- C8: when `rand()` returns 0 the duration handed to `clock_advance` is 0 ns, below the
1,000,000 ns the comment on line 260 announces. -/
theorem dn_zero_when_rand_zero :
    gen_dn 0 = 0 ∧ ¬ (1000000 ≤ gen_dn 0 ∧ gen_dn 0 ≤ 1000000000)
      ∧ (run [.main 0, .main 0, .main 0] (loop_init Globals.zero)).map Sys.cur
          = some [.clock_lock 0, .clock_advance 0 0] := by
  decide

/-- C9: when `rand()` returns 500 the spacing of line 289 is 0 ns, so a spawn is attempted on
a later iteration (`last_time` = 700,000,000) after only 5 ns of virtual time: in
`short_spacing_run` the second iteration calls `launch_child`. -/
theorem spacing_zero_when_rand_500 :
    spawn_spacing 500 = 0 ∧ ¬ (1000000 ≤ spawn_spacing 500)
      ∧ elapsed 700000005 700000000 = 5
      ∧ should_spawn 700000000 700000005 500 = true
      ∧ (run short_spacing_run (loop_init demo_g)).map
            (fun s => (s.last_time, s.now_time, s.cur))
          = some (700000000, 700000005,
              [.clock_lock 0, .clock_advance 5 0, .clock_get_nanos, .clock_get_seconds,
               .clock_unlock 0, .launch_child 1]) := by
  decide

/-! ## The invariant of the loop -/

theorem inv_loop_init (g : Globals) (h : g.num_child_procs ≤ MAX_PROCESSES) :
    Inv (loop_init g) := by
  constructor <;> simp_all [loop_init, Sys.events, cur_clock_ok, clock_calls, main_events]

theorem clock_calls_snoc (l : List Event) (e : Event) :
    clock_calls (l ++ [e]) = clock_calls l ++ (if e.on_clock then [e] else []) := by
  simp only [clock_calls, List.filter_append, List.filter_cons, List.filter_nil]

theorem main_events_snoc (l : List Event) (e : Event) :
    main_events (l ++ [e]) = main_events l ++ (if e.in_handler then [] else [e]) := by
  simp only [main_events, List.filter_append, List.filter_cons, List.filter_nil]
  cases e.in_handler <;> simp

theorem events_emit (s : Sys) (e : Event) : (s.emit e).events = s.events ++ [e] := by
  simp [Sys.emit, Sys.events]

theorem main_step_count (x : Int) (s s1 : Sys) (h : main_step x s = some s1)
    (h1 : s.g.num_child_procs ≤ MAX_PROCESSES)
    (h2 : s.pc = .launch_entry ∨ s.pc = .launch_fork ∨ s.pc = .launch_load →
      s.g.num_child_procs < MAX_PROCESSES)
    (h3 : s.pc = .launch_store → s.reg < MAX_PROCESSES) :
    s1.g.num_child_procs ≤ MAX_PROCESSES
      ∧ (s1.pc = .launch_entry ∨ s1.pc = .launch_fork ∨ s1.pc = .launch_load →
          s1.g.num_child_procs < MAX_PROCESSES)
      ∧ (s1.pc = .launch_store → s1.reg < MAX_PROCESSES) := by
  unfold main_step launch_child at h
  cases hpc : s.pc <;> simp only [hpc] at h h2 h3 <;> (try split_ifs at h) <;>
    simp only [Option.some.injEq, reduceCtorEq] at h <;> subst h <;>
    simp_all [Sys.emit, MAX_PROCESSES]
  all_goals omega

theorem main_step_events (x : Int) (s s1 : Sys) (h : main_step x s = some s1) (e : Event)
    (he : e ∈ s1.events) :
    e ∈ s.events ∨ (e.on_resmgr = false ∧ e.in_handler = false ∧
      ∀ n, e = .launch_child n → s.pc = .launch_entry ∧ n = s.g.num_child_procs) := by
  unfold main_step launch_child at h
  cases hpc : s.pc
  case sleep =>
    simp only [hpc, Option.some.injEq] at h
    subst h
    simp only [Sys.events, List.flatten_append, List.flatten_cons, List.flatten_nil,
      List.append_nil, List.mem_append, List.mem_singleton] at he ⊢
    rcases he with he | he | rfl
    · exact Or.inl (Or.inl he)
    · exact Or.inl (Or.inr he)
    · right; simp [Event.on_resmgr, Event.in_handler]
  all_goals
    simp only [hpc] at h
    (try split_ifs at h)
    all_goals
      simp only [Option.some.injEq, reduceCtorEq] at h
      subst h
      try simp only [events_emit, List.mem_append, List.mem_singleton] at he
      first
      | exact Or.inl he
      | (rcases he with he | rfl
         · exact Or.inl he
         · right; simp [Event.on_resmgr, Event.in_handler])
      | (rcases he with (he | rfl) | rfl
         · exact Or.inl he
         · right; simp [Event.on_resmgr, Event.in_handler]
         · right; simp [Event.on_resmgr, Event.in_handler])

theorem main_step_clock (x : Int) (s s1 : Sys) (h : main_step x s = some s1)
    (h5 : ∀ it ∈ s.past, ∃ dn, clock_calls it = five_calls dn 0)
    (h6 : cur_clock_ok s)
    (h7 : s.pc.in_clock_part = true → main_events s.cur = clock_calls s.cur) :
    (∀ it ∈ s1.past, ∃ dn, clock_calls it = five_calls dn 0)
      ∧ cur_clock_ok s1
      ∧ (s1.pc.in_clock_part = true → main_events s1.cur = clock_calls s1.cur) := by
  unfold main_step launch_child at h
  unfold cur_clock_ok at h6 ⊢
  cases hpc : s.pc
  case sleep =>
    simp only [hpc, Option.some.injEq] at h h6
    subst h
    refine ⟨?_, by simp [clock_calls], by simp [clock_calls, main_events]⟩
    intro it hit
    simp only [List.mem_append, List.mem_singleton] at hit
    rcases hit with hit | rfl
    · exact h5 it hit
    · exact ⟨s.dn, by simp [clock_calls_snoc, h6, Event.on_clock]⟩
  all_goals
    simp only [hpc, PC.in_clock_part] at h h6 h7
    (try split_ifs at h)
    all_goals
      simp only [Option.some.injEq, reduceCtorEq] at h
      subst h
      refine ⟨h5, ?_, ?_⟩ <;>
        (try simp only [Sys.emit, clock_calls_snoc, main_events_snoc, PC.in_clock_part,
          Event.on_clock, Event.in_handler]) <;>
        first
        | (simp [h6, h7, five_calls, *] <;> omega)
        | simpa [five_calls, hpc] using h6

theorem cur_clock_ok_congr (s s1 : Sys) (hpc : s1.pc = s.pc) (hdn : s1.dn = s.dn)
    (hc : clock_calls s1.cur = clock_calls s.cur) (h : cur_clock_ok s) : cur_clock_ok s1 := by
  unfold cur_clock_ok at *
  rw [hpc, hdn, hc]
  exact h

theorem main_step_inv (x : Int) (s s1 : Sys) (h : main_step x s = some s1) (hi : Inv s) :
    Inv s1 := by
  obtain ⟨c1, c2, c3⟩ := main_step_count x s s1 h hi.num_le hi.room hi.reg_lt
  obtain ⟨k1, k2, k3⟩ := main_step_clock x s s1 h hi.past_ok hi.cur_ok hi.early
  refine ⟨c1, c2, c3, ?_, k1, k2, k3, ?_⟩
  · intro n hn
    rcases main_step_events x s s1 h _ hn with hn | ⟨-, -, hn⟩
    · exact hi.calls_lt n hn
    · obtain ⟨hpc, rfl⟩ := hn n rfl
      exact hi.room (Or.inl hpc)
  · intro e he
    rcases main_step_events x s s1 h _ he with he | ⟨he, -⟩
    · exact hi.no_resmgr e he
    · exact he

theorem handle_sigchld_inv (pid : Int) (s s1 : Sys) (h : handle_sigchld pid s = some s1)
    (hi : Inv s) : Inv s1 := by
  unfold handle_sigchld at h
  split_ifs at h
  simp only [Option.some.injEq] at h
  subst h
  refine ⟨?_, ?_, ?_, ?_, ?_, ?_, ?_, ?_⟩
  · have := hi.num_le
    simp only [Sys.emit, MAX_PROCESSES] at this ⊢
    omega
  · intro hpc
    have := hi.num_le
    simp only [Sys.emit, MAX_PROCESSES] at this ⊢
    omega
  · exact hi.reg_lt
  · intro n hn
    have hn1 : Event.launch_child n ∈ s.events := by
      simpa [Sys.events, Sys.emit] using hn
    exact hi.calls_lt n hn1
  · exact hi.past_ok
  · refine cur_clock_ok_congr s _ rfl rfl ?_ hi.cur_ok
    simp only [Sys.emit, clock_calls_snoc, Event.on_clock]
    simp
  · intro hpc
    have := hi.early hpc
    simp only [Sys.emit, clock_calls_snoc, main_events_snoc, Event.on_clock, Event.in_handler]
    simpa using this
  · intro e he
    have he1 : e ∈ s.events ∨ e = .write_death_notice ∨ e = .wait pid := by
      simpa [Sys.events, Sys.emit, or_assoc] using he
    rcases he1 with he1 | rfl | rfl
    · exact hi.no_resmgr e he1
    · rfl
    · rfl

theorem handle_sigint_inv (s : Sys) (hi : Inv s) : Inv (handle_sigint s) :=
  ⟨hi.num_le, hi.room, hi.reg_lt, hi.calls_lt, hi.past_ok,
    cur_clock_ok_congr s _ rfl rfl rfl hi.cur_ok, hi.early, hi.no_resmgr⟩

theorem step_inv (a : Action) (s s1 : Sys) (h : step a s = some s1) (hi : Inv s) : Inv s1 := by
  cases a with
  | main x => exact main_step_inv x s s1 h hi
  | sigchld pid => exact handle_sigchld_inv pid s s1 h hi
  | sigint =>
    simp only [step, Option.some.injEq] at h
    subst h
    exact handle_sigint_inv s hi

theorem run_inv (acts : List Action) (s s1 : Sys) (h : run acts s = some s1) (hi : Inv s) :
    Inv s1 := by
  induction acts generalizing s with
  | nil =>
    simp only [run, Option.some.injEq] at h
    subst h
    exact hi
  | cons a acts ih =>
    simp only [run] at h
    cases hs : step a s with
    | none => simp [hs] at h
    | some s2 =>
      rw [hs] at h
      exact ih s2 h (step_inv a s s2 hs hi)

/-- Every state the supervisor reaches in the loop satisfies the invariant. -/
theorem reachable_inv (host : Host) (args : List String) (g : Globals) (acts : List Action)
    (s : Sys) (hs : main_startup host args = .running g)
    (hr : run acts (loop_init g) = some s) : Inv s := by
  refine run_inv acts _ s hr (inv_loop_init g ?_)
  rw [main_startup_running host args g hs]
  decide

/-! ## The claims about the loop -/

/-- C1: in every state the supervisor reaches in the loop, whatever the interleaving of the
statements of `main` and `launch_child` with the signal handlers, `num_child_procs` is at most
`MAX_PROCESSES` = 18, and every call of `launch_child` was made with `num_child_procs` below
18. -/
theorem census_within_ceiling (host : Host) (args : List String) (g : Globals)
    (acts : List Action) (s : Sys) (hs : main_startup host args = .running g)
    (hr : run acts (loop_init g) = some s) :
    MAX_PROCESSES = 18 ∧ s.g.num_child_procs ≤ MAX_PROCESSES
      ∧ ∀ n, Event.launch_child n ∈ s.events → n < MAX_PROCESSES :=
  ⟨rfl, (reachable_inv host args g acts s hs hr).num_le,
    (reachable_inv host args g acts s hs hr).calls_lt⟩

/-- C1 on a run that spawns a child. -/
theorem census_within_ceiling_witness :
    main_startup host_ok [] = .running demo_g
      ∧ run first_iteration (loop_init demo_g) = some after_first_iteration
      ∧ after_first_iteration.g.num_child_procs ≤ MAX_PROCESSES :=
  have h1 : main_startup host_ok [] = .running demo_g := by decide
  have h2 : run first_iteration (loop_init demo_g) = some after_first_iteration := by decide
  ⟨h1, h2, (census_within_ceiling host_ok [] demo_g first_iteration after_first_iteration
    h1 h2).2.1⟩

/-- C2: in every reachable state, each completed iteration of the loop has made exactly the
calls `clock_lock` (returning 0), `clock_advance`, `clock_get_nanos`, `clock_get_seconds`,
`clock_unlock`, once each and in this order; the iteration under way has made an initial
segment of them after a `clock_lock` that returned 0, or only a `clock_lock` that returned
nonzero; and `handle_exit` reads the clock only between a `clock_lock` that returned 0 and
`clock_unlock`. -/
theorem clock_used_under_lock (host : Host) (args : List String) (g : Globals)
    (acts : List Action) (s : Sys) (hs : main_startup host args = .running g)
    (hr : run acts (loop_init g) = some s) :
    (∀ it ∈ s.past, ∃ dn, clock_calls it
        = [.clock_lock 0, .clock_advance dn 0, .clock_get_nanos, .clock_get_seconds,
           .clock_unlock 0])
      ∧ ((∃ dn u rest, clock_calls s.cur ++ rest
            = [.clock_lock 0, .clock_advance dn 0, .clock_get_nanos, .clock_get_seconds,
               .clock_unlock u])
          ∨ ∃ x, x ≠ 0 ∧ clock_calls s.cur = [.clock_lock x])
      ∧ ∀ (g1 : Globals) (lock_result unlock_result : Int) (clk : Int × Int),
          clock_calls (handle_exit g1 lock_result unlock_result clk)
            = if g1.clock = none then []
              else if lock_result = 0 then
                [.clock_lock lock_result, .clock_get_nanos, .clock_get_seconds,
                 .clock_unlock unlock_result, .clock_delete]
              else [.clock_lock lock_result, .clock_delete] := by
  have hi := reachable_inv host args g acts s hs hr
  refine ⟨hi.past_ok, ?_, ?_⟩
  · have hc := hi.cur_ok
    unfold cur_clock_ok at hc
    cases hpc : s.pc
    case exited code =>
      simp only [hpc] at hc
      rcases hc with ⟨x, hx, hc⟩ | ⟨u, hc⟩
      · exact Or.inr ⟨x, hx, hc⟩
      · exact Or.inl ⟨s.dn, u, [], by simp [hc, five_calls]⟩
    all_goals
      simp only [hpc] at hc
      first
      | (refine Or.inl ⟨s.dn, 0, (five_calls s.dn 0).drop 0, ?_⟩
         simp [hc, five_calls]
         done)
      | (refine Or.inl ⟨s.dn, 0, (five_calls s.dn 0).drop 1, ?_⟩
         simp [hc, five_calls]
         done)
      | (refine Or.inl ⟨s.dn, 0, (five_calls s.dn 0).drop 2, ?_⟩
         simp [hc, five_calls]
         done)
      | (refine Or.inl ⟨s.dn, 0, (five_calls s.dn 0).drop 3, ?_⟩
         simp [hc, five_calls]
         done)
      | (refine Or.inl ⟨s.dn, 0, (five_calls s.dn 0).drop 4, ?_⟩
         simp [hc, five_calls]
         done)
      | (refine Or.inl ⟨s.dn, 0, (five_calls s.dn 0).drop 5, ?_⟩
         simp [hc, five_calls])
  · intro g1 lock_result unlock_result clk
    obtain ⟨path, verbose, log_file, clock, resmgr, n, d, i⟩ := g1
    cases clock <;> cases resmgr <;> cases log_file <;> cases path <;>
      by_cases hl : lock_result = 0 <;> by_cases hd : i = 0 <;>
      simp [handle_exit, clock_calls, Event.on_clock, hl, hd, List.filter_cons]

/-- C2 on a run of one full iteration. -/
theorem clock_used_under_lock_witness :
    main_startup host_ok [] = .running demo_g
      ∧ run first_iteration (loop_init demo_g) = some after_first_iteration
      ∧ ∀ it ∈ after_first_iteration.past, ∃ dn, clock_calls it
          = [.clock_lock 0, .clock_advance dn 0, .clock_get_nanos, .clock_get_seconds,
             .clock_unlock 0] :=
  have h1 : main_startup host_ok [] = .running demo_g := by decide
  have h2 : run first_iteration (loop_init demo_g) = some after_first_iteration := by decide
  ⟨h1, h2, (clock_used_under_lock host_ok [] demo_g first_iteration after_first_iteration
    h1 h2).1⟩

/-- C3 as stated fails: child 4321 is spawned in a first iteration, SIGCHLD reports its death
in the second, line 281 finds `last_child_proc_dead` nonzero and line 283 prints it, and the
iteration ends without any call on the resource manager. -/
theorem death_reported_without_reclaim :
    (run (first_iteration ++ death_arrives ++ death_reported) (loop_init demo_g)).map Sys.past
        = some [first_iteration_events, death_iteration_events]
      ∧ Event.print_died 4321 ∈ death_iteration_events
      ∧ death_iteration_events.all (fun e => !e.on_resmgr) = true := by
  decide

theorem run_cons (a : Action) (as : List Action) (s : Sys) :
    run (a :: as) s = (step a s).bind (run as) := by
  simp only [run]
  cases step a s <;> rfl

theorem run_append (as bs : List Action) (s : Sys) :
    run (as ++ bs) s = (run as s).bind (run bs) := by
  induction as generalizing s with
  | nil => simp [run]
  | cons a as ih =>
    simp only [List.cons_append, run]
    cases step a s with
    | none => simp
    | some s1 => simpa using ih s1

/-- Signals handled between two statements: the handlers run, the position and the completed
iterations stay, the log grows by what the handlers did and `last_child_proc_dead` holds the
last pid recorded; each handler run lowers the census by at most one. -/
theorem run_signals (sigs : List Action) (s : Sys)
    (hall : sigs.all Action.is_signal = true)
    (hroom : INT_MIN + sigs.length < s.g.num_child_procs) :
    ∃ t, run sigs s = some t ∧ t.pc = s.pc ∧ t.past = s.past
      ∧ t.cur = s.cur ++ handler_events sigs
      ∧ t.g.last_child_proc_dead = last_recorded sigs s.g.last_child_proc_dead
      ∧ s.g.num_child_procs - sigs.length ≤ t.g.num_child_procs := by
  induction sigs generalizing s with
  | nil => exact ⟨s, rfl, rfl, rfl, by simp [handler_events], rfl, by simp⟩
  | cons a sigs ih =>
    simp only [List.all_cons, Bool.and_eq_true] at hall
    simp only [List.length_cons, Nat.cast_add, Nat.cast_one] at hroom
    cases a with
    | main x => simp [Action.is_signal] at hall
    | sigint =>
      obtain ⟨t, h1, h2, h3, h4, h5, h6⟩ := ih (handle_sigint s) hall.2
        (by simp only [handle_sigint]; omega)
      refine ⟨t, by simpa [run, step] using h1, h2, h3, ?_, ?_, ?_⟩
      · simpa [handler_events, handle_sigint] using h4
      · simpa [last_recorded, handle_sigint] using h5
      · simp only [handle_sigint, List.length_cons, Nat.cast_add, Nat.cast_one] at h6 ⊢
        omega
    | sigchld pid =>
      have hne : ¬ s.g.num_child_procs = INT_MIN := by omega
      have hstep : step (.sigchld pid) s
          = some { s with g := { s.g with num_child_procs := s.g.num_child_procs - 1,
                                          last_child_proc_dead := pid },
                          cur := s.cur ++ [.write_death_notice] ++ [.wait pid] } := by
        simp [step, handle_sigchld, hne, Sys.emit]
      obtain ⟨t, h1, h2, h3, h4, h5, h6⟩ := ih
        { s with g := { s.g with num_child_procs := s.g.num_child_procs - 1,
                                 last_child_proc_dead := pid },
                 cur := s.cur ++ [.write_death_notice] ++ [.wait pid] } hall.2
        (show INT_MIN + (sigs.length : Int) < s.g.num_child_procs - 1 by omega)
      refine ⟨t, by simp only [run, hstep]; exact h1, h2, h3, ?_, ?_, ?_⟩
      · simpa [handler_events] using h4
      · simpa [last_recorded] using h5
      · simp only [List.length_cons, Nat.cast_add, Nat.cast_one] at h6 ⊢
        omega

/-- C3, as amended: nothing the supervisor does in the loop is a call on the resource manager;
when line 281 finds `last_child_proc_dead` nonzero, then, whatever signals are handled between
the statements (`sigs1` before line 283, `sigs2` before line 284, the census staying within
`int`), line 283 prints "process <pid> has died" with the value `last_child_proc_dead` holds
when it reads it, and line 284 stores 0 in `last_child_proc_dead`, within the same
iteration. -/
theorem death_is_printed_and_cleared (host : Host) (args : List String) (g : Globals)
    (acts : List Action) (s : Sys) (hs : main_startup host args = .running g)
    (hr : run acts (loop_init g) = some s) :
    (∀ e ∈ s.events, e.on_resmgr = false)
      ∧ (s.pc = .report_test → s.g.last_child_proc_dead ≠ 0 →
          ∀ (sigs1 sigs2 : List Action) (x y z : Int),
            sigs1.all Action.is_signal = true → sigs2.all Action.is_signal = true →
            INT_MIN + (sigs1.length + sigs2.length : Nat) < s.g.num_child_procs →
            (run ((.main x :: sigs1) ++ ((.main y :: sigs2) ++ [.main z])) s).map
                (fun t => (t.pc, t.g.last_child_proc_dead, t.past, t.cur))
              = some (.spawn_cond, 0, s.past,
                  s.cur ++ handler_events sigs1
                    ++ [.print_died (last_recorded sigs1 s.g.last_child_proc_dead)]
                    ++ handler_events sigs2)) := by
  refine ⟨(reachable_inv host args g acts s hs hr).no_resmgr, ?_⟩
  intro hpc hd sigs1 sigs2 x y z hall1 hall2 hroom
  simp only [Nat.cast_add] at hroom
  -- line 281
  have h1 : step (.main x) s = some { s with pc := .report_print } := by
    simp [step, main_step, hpc, hd]
  -- signals before line 283
  obtain ⟨s2, r2, p2, q2, c2, d2, n2⟩ := run_signals sigs1 { s with pc := .report_print } hall1
    (show INT_MIN + (sigs1.length : Int) < s.g.num_child_procs by omega)
  simp only at p2 q2 c2 d2 n2
  -- line 283
  have h3 : step (.main y) s2
      = some ({ s2 with pc := .report_reset }.emit (.print_died s2.g.last_child_proc_dead)) := by
    simp [step, main_step, p2]
  -- signals before line 284
  obtain ⟨s4, r4, p4, q4, c4, d4, n4⟩ := run_signals sigs2
    ({ s2 with pc := .report_reset }.emit (.print_died s2.g.last_child_proc_dead)) hall2
    (show INT_MIN + (sigs2.length : Int) < s2.g.num_child_procs by omega)
  simp only [Sys.emit] at p4 q4 c4 d4 n4
  -- line 284
  have h5 : step (.main z) s4
      = some { s4 with g := { s4.g with last_child_proc_dead := 0 }, pc := .spawn_cond } := by
    simp [step, main_step, p4]
  have hrun : run ((.main x :: sigs1) ++ ((.main y :: sigs2) ++ [.main z])) s
      = some { s4 with g := { s4.g with last_child_proc_dead := 0 }, pc := .spawn_cond } := by
    rw [List.cons_append, run_cons, h1, Option.some_bind, run_append, r2, Option.some_bind,
      List.cons_append, run_cons, h3, Option.some_bind, run_append, r4, Option.some_bind,
      run_cons, h5, Option.some_bind]
    rfl
  rw [hrun]
  simp [q4, q2, c4, c2, d2]

/-- C3 at the death of child 4321, with a second SIGCHLD (pid 4322) handled between lines 281
and 283 and a SIGINT between lines 283 and 284: the line printed names 4322. -/
theorem death_is_printed_and_cleared_witness :
    main_startup host_ok [] = .running demo_g
      ∧ run (first_iteration ++ death_arrives) (loop_init demo_g) = some death_pending
      ∧ death_pending.pc = .report_test
      ∧ death_pending.g.last_child_proc_dead ≠ 0
      ∧ (run ((.main 0 :: [.sigchld 4322]) ++ ((.main 0 :: [.sigint]) ++ [.main 0]))
            death_pending).map (fun t => (t.pc, t.g.last_child_proc_dead, t.past, t.cur))
          = some (.spawn_cond, 0, death_pending.past,
              death_pending.cur ++ handler_events [.sigchld 4322]
                ++ [.print_died
                      (last_recorded [.sigchld 4322] death_pending.g.last_child_proc_dead)]
                ++ handler_events [.sigint]) :=
  have h1 : main_startup host_ok [] = .running demo_g := by decide
  have h2 : run (first_iteration ++ death_arrives) (loop_init demo_g) = some death_pending := by
    decide
  ⟨h1, h2, rfl, by decide,
    (death_is_printed_and_cleared host_ok [] demo_g (first_iteration ++ death_arrives)
      death_pending h1 h2).2 rfl (by decide) [.sigchld 4322] [.sigint] 0 0 0
      (by decide) (by decide) (by decide)⟩

/-- C5: in every reachable state at the top of an iteration, a nonzero return of `clock_lock`
makes `main` return 1 at once, the failed `clock_lock` being all that `main` did in that
iteration; before line 273, a nonzero return of `clock_unlock` makes `main` return 1 at once,
the five clock calls being all that `main` did in that iteration (no death report, no
`launch_child`); and once `main` has returned it executes nothing more. -/
theorem sync_failure_returns_1 (host : Host) (args : List String) (g : Globals)
    (acts : List Action) (s : Sys) (hs : main_startup host args = .running g)
    (hr : run acts (loop_init g) = some s) (x : Int) (hx : x ≠ 0) :
    (s.pc = .lock →
        (step (.main x) s).map (fun t => (t.pc, main_events t.cur))
          = some (.exited 1, [.clock_lock x]))
      ∧ (s.pc = .unlock →
        (step (.main x) s).map (fun t => (t.pc, main_events t.cur))
          = some (.exited 1, [.clock_lock 0, .clock_advance s.dn 0, .clock_get_nanos,
              .clock_get_seconds, .clock_unlock x]))
      ∧ ∀ (code y : Int), s.pc = .exited code → step (.main y) s = some s := by
  have hi := reachable_inv host args g acts s hs hr
  have hc := hi.cur_ok
  have he := hi.early
  unfold cur_clock_ok at hc
  refine ⟨?_, ?_, ?_⟩
  · intro hpc
    simp only [hpc, PC.in_clock_part, true_implies] at hc he
    simp [step, main_step, hpc, hx, Sys.emit, main_events_snoc, Event.in_handler, he, hc]
  · intro hpc
    simp only [hpc, PC.in_clock_part, true_implies] at hc he
    simp [step, main_step, hpc, hx, Sys.emit, main_events_snoc, Event.in_handler, he, hc]
  · intro code y hpc
    simp [step, main_step, hpc]

/-- C5 at the first `clock_lock` of a run. -/
theorem sync_failure_returns_1_witness :
    main_startup host_ok [] = .running demo_g
      ∧ (1 : Int) ≠ 0
      ∧ (loop_init demo_g).pc = .lock
      ∧ (step (.main 1) (loop_init demo_g)).map (fun t => (t.pc, main_events t.cur))
          = some (.exited 1, [.clock_lock 1]) :=
  have h1 : main_startup host_ok [] = .running demo_g := by decide
  ⟨h1, by decide, rfl,
    (sync_failure_returns_1 host_ok [] demo_g [] (loop_init demo_g) h1 rfl 1 (by decide)).1 rfl⟩

end Oss
